import Mathlib

/-!
Verification of the simple-chat repository: a shallow embedding of the
protocol codec (package `protocol`) and of the server registry operations
(package `server`), with theorems settling the specification claims.

Strings are modelled by Lean `String`; Go `strings.SplitN(s, "|", 2)` is
modelled by `splitN2` below, which returns the part before the first
separator and, when a separator occurs, the remainder.
-/

namespace SimpleChat

/-- Go struct `protocol.Message`: a parsed protocol message.  The Go field
`Type` is called `MsgType` here because `Type` is a Lean keyword. -/
structure Message where
  MsgType : String
  Username : String
  Body : String
deriving DecidableEq, Repr

/-- Go `protocol.Encode`: serializes a `Message` into a wire-format string
(without trailing newline). -/
def Encode (m : Message) : String :=
  match m.MsgType with
  | "JOIN" => "JOIN" ++ "|" ++ m.Username
  | "SEND" => "SEND" ++ "|" ++ m.Body
  | "LEAVE" => "LEAVE"
  | "OK" => "OK"
  | "ERR" => "ERR" ++ "|" ++ m.Body
  | "MSG" => "MSG" ++ "|" ++ m.Username ++ "|" ++ m.Body
  | "JOINED" => "JOINED" ++ "|" ++ m.Username
  | "LEFT" => "LEFT" ++ "|" ++ m.Username
  | _ => ""

/-- Splits a character list at the first occurrence of `sep`: returns the
part before it and the part after it, or `none` when `sep` does not occur. -/
def splitFirst (sep : Char) : List Char → Option (List Char × List Char)
  | [] => none
  | c :: cs =>
    if c = sep then some ([], cs)
    else (splitFirst sep cs).map (fun p => (c :: p.1, p.2))

/-- Go `strings.SplitN(s, "|", 2)`: the returned pair is (`parts[0]`,
`parts[1]` when present).  `none` in the second component corresponds to
`len(parts) < 2`. -/
def splitN2 (s : String) : String × Option String :=
  match splitFirst '|' s.data with
  | none => (s, none)
  | some (a, b) => (String.mk a, some (String.mk b))

/-- Go `protocol.Decode`: parses a single wire-format line (without trailing
newline) into a `Message`; `none` models `ErrInvalidMessage`. -/
def Decode (line : String) : Option Message :=
  if line = "" then none
  else
    let parts := splitN2 line
    match parts.1 with
    | "JOIN" =>
      match parts.2 with
      | none => none
      | some u => if u = "" then none else some ⟨"JOIN", u, ""⟩
    | "SEND" =>
      match parts.2 with
      | none => none
      | some b => if b = "" then none else some ⟨"SEND", "", b⟩
    | "LEAVE" => some ⟨"LEAVE", "", ""⟩
    | "OK" => some ⟨"OK", "", ""⟩
    | "ERR" =>
      match parts.2 with
      | none => none
      | some b => if b = "" then none else some ⟨"ERR", "", b⟩
    | "MSG" =>
      match parts.2 with
      | none => none
      | some payload =>
        let subParts := splitN2 payload
        match subParts.2 with
        | none => none
        | some b =>
          if subParts.1 = "" then none
          else if b = "" then none
          else some ⟨"MSG", subParts.1, b⟩
    | "JOINED" =>
      match parts.2 with
      | none => none
      | some u => if u = "" then none else some ⟨"JOINED", u, ""⟩
    | "LEFT" =>
      match parts.2 with
      | none => none
      | some u => if u = "" then none else some ⟨"LEFT", u, ""⟩
    | _ => none

/-- Go constant `server.outboxSize`: the outbox capacity used by
`newConnectedClient`. -/
def outboxSize : Nat := 256

/-- Go struct `server.ConnectedClient`.  The buffered channel
`outbox chan string` is modelled by its capacity together with the list of
currently buffered lines (front of the list = next line to be received);
the `conn`, `server` and `done` fields carry no registry-relevant state and
are omitted. -/
structure ConnectedClient where
  username : String
  capacity : Nat
  outbox : List String
deriving DecidableEq, Repr

/-- Go `server.newConnectedClient`: fresh client with an empty outbox of
capacity `outboxSize`. -/
def newConnectedClient (username : String) : ConnectedClient :=
  { username := username, capacity := outboxSize, outbox := [] }

/-- Go method `(*ConnectedClient).Send`: non-blocking enqueue.  The Go
`select` with a `default` branch succeeds exactly when the buffered channel
is below capacity; otherwise the line is dropped (only a log line is
emitted). -/
def Send (c : ConnectedClient) (line : String) : ConnectedClient :=
  if c.outbox.length < c.capacity then { c with outbox := c.outbox ++ [line] }
  else c

/-- The `clients` field of Go struct `server.ChatServer`:
`map[string]*ConnectedClient` keyed by the client's own username, modelled
as a list of clients (iteration order of a Go map is arbitrary; none of the
registry operations depends on it). -/
def Registry := List ConnectedClient

/-- Go method `(*ChatServer).addClient`: returns `false` and leaves the map
unchanged when the username is already present, otherwise inserts the
client and returns `true`. -/
def addClient (clients : List ConnectedClient) (c : ConnectedClient) :
    Bool × List ConnectedClient :=
  if clients.any (fun x => x.username = c.username) then (false, clients)
  else (true, c :: clients)

/-- Go method `(*ChatServer).broadcast`: sends the line to every client
whose username differs from `sender`. -/
def broadcast (clients : List ConnectedClient) (sender line : String) :
    List ConnectedClient :=
  clients.map (fun c => if c.username = sender then c else Send c line)

/-- Go method `(*ChatServer).removeClient`: checks presence, deletes the
entry, and broadcasts a LEFT message only when an entry was actually
deleted. -/
def removeClient (clients : List ConnectedClient) (username : String) :
    List ConnectedClient :=
  let present := clients.any (fun x => x.username = username)
  let remaining := clients.filter (fun x => x.username ≠ username)
  if present then
    broadcast remaining username (Encode ⟨"LEFT", username, ""⟩)
  else remaining

/-- The handshake step of Go `(*ChatServer).handleConnection` after the
first line has been decoded successfully: type check, empty-username check,
`addClient`, then OK plus JOINED broadcast.  Returns the lines written to
this connection paired with the updated registry; a non-OK response means
the connection is closed without having been registered. -/
def handleJoinMsg (clients : List ConnectedClient) (msg : Message) :
    List String × List ConnectedClient :=
  if msg.MsgType ≠ "JOIN" then
    ([Encode ⟨"ERR", "", "expected JOIN message"⟩], clients)
  else if msg.Username = "" then
    ([Encode ⟨"ERR", "", "username cannot be empty"⟩], clients)
  else
    let client := newConnectedClient msg.Username
    let res := addClient clients client
    if res.1 then
      ([Encode ⟨"OK", "", ""⟩],
        broadcast res.2 msg.Username (Encode ⟨"JOINED", msg.Username, ""⟩))
    else
      ([Encode ⟨"ERR", "", "username taken"⟩], clients)

/-- Go `(*ChatServer).handleConnection`, from the first received line up to
the point where the client is registered (or rejected): Go's combined test
`err != nil || msg.Type != TypeJoin` is split into the decode `match` here
and the type test in `handleJoinMsg`. -/
def handleFirstLine (clients : List ConnectedClient) (line : String) :
    List String × List ConnectedClient :=
  match Decode line with
  | none => ([Encode ⟨"ERR", "", "expected JOIN message"⟩], clients)
  | some msg => handleJoinMsg clients msg

/-- A message in the canonical form of the spec's discriminated union: the
fields the variant carries are non-empty and the fields it does not carry
are empty.  This definition follows the spec's data model (§3, §6) and is
used to compare the codec against the round-trip claim. -/
def wellFormed (m : Message) : Bool :=
  match m.MsgType with
  | "JOIN" => m.Username != "" && m.Body == ""
  | "SEND" => m.Body != "" && m.Username == ""
  | "LEAVE" => m.Username == "" && m.Body == ""
  | "OK" => m.Username == "" && m.Body == ""
  | "ERR" => m.Body != "" && m.Username == ""
  | "MSG" => m.Username != "" && m.Body != ""
  | "JOINED" => m.Username != "" && m.Body == ""
  | "LEFT" => m.Username != "" && m.Body == ""
  | _ => false

/-! ### Helper lemmas about the codec -/

theorem append_sep_ne_empty (p q : String) : (p ++ "|" ++ q) ≠ "" := by
  simp [String.ext_iff, String.data_append]

theorem splitFirst_append_sep (sep : Char) (l rest : List Char) (h : sep ∉ l) :
    splitFirst sep (l ++ sep :: rest) = some (l, rest) := by
  induction l with
  | nil => simp [splitFirst]
  | cons c cs ih =>
    simp only [List.mem_cons, not_or] at h
    simp [splitFirst, Ne.symm h.1, ih h.2]

theorem splitN2_append_sep (p q : String) (h : '|' ∉ p.data) :
    splitN2 (p ++ "|" ++ q) = (p, some q) := by
  have hd : (p ++ "|" ++ q).data = p.data ++ '|' :: q.data := by
    simp [String.data_append]
  simp [splitN2, hd, splitFirst_append_sep '|' p.data q.data h]

/-- Any message produced by `Decode` satisfies the grammar's non-emptiness
constraints on the fields its variant carries. -/
theorem decode_fields_aux (line : String) (m : Message)
    (h : Decode line = some m) :
    ((m.MsgType = "JOIN" ∨ m.MsgType = "JOINED" ∨ m.MsgType = "LEFT") →
      m.Username ≠ "") ∧
    ((m.MsgType = "SEND" ∨ m.MsgType = "ERR") → m.Body ≠ "") ∧
    (m.MsgType = "MSG" → m.Username ≠ "" ∧ m.Body ≠ "") := by
  unfold Decode at h
  split at h
  · simp at h
  · dsimp only at h
    split at h <;> (try split at h) <;> (try split at h) <;>
      (try split at h) <;> simp_all <;>
      (first
        | (subst h; simp_all)
        | (obtain ⟨hb, hm⟩ := h; subst hm; simp_all))

theorem roundtrip_join (u : String) (hu : u ≠ "") :
    Decode (Encode ⟨"JOIN", u, ""⟩) = some ⟨"JOIN", u, ""⟩ := by
  show Decode ("JOIN" ++ "|" ++ u) = some ⟨"JOIN", u, ""⟩
  have hne := append_sep_ne_empty "JOIN" u
  have key := splitN2_append_sep "JOIN" u (by decide)
  unfold Decode
  rw [if_neg hne, key]
  simp [hu]

theorem roundtrip_send (b : String) (hb : b ≠ "") :
    Decode (Encode ⟨"SEND", "", b⟩) = some ⟨"SEND", "", b⟩ := by
  show Decode ("SEND" ++ "|" ++ b) = some ⟨"SEND", "", b⟩
  have hne := append_sep_ne_empty "SEND" b
  have key := splitN2_append_sep "SEND" b (by decide)
  unfold Decode
  rw [if_neg hne, key]
  simp [hb]

theorem roundtrip_err (b : String) (hb : b ≠ "") :
    Decode (Encode ⟨"ERR", "", b⟩) = some ⟨"ERR", "", b⟩ := by
  show Decode ("ERR" ++ "|" ++ b) = some ⟨"ERR", "", b⟩
  have hne := append_sep_ne_empty "ERR" b
  have key := splitN2_append_sep "ERR" b (by decide)
  unfold Decode
  rw [if_neg hne, key]
  simp [hb]

theorem roundtrip_joined (u : String) (hu : u ≠ "") :
    Decode (Encode ⟨"JOINED", u, ""⟩) = some ⟨"JOINED", u, ""⟩ := by
  show Decode ("JOINED" ++ "|" ++ u) = some ⟨"JOINED", u, ""⟩
  have hne := append_sep_ne_empty "JOINED" u
  have key := splitN2_append_sep "JOINED" u (by decide)
  unfold Decode
  rw [if_neg hne, key]
  simp [hu]

theorem roundtrip_left (u : String) (hu : u ≠ "") :
    Decode (Encode ⟨"LEFT", u, ""⟩) = some ⟨"LEFT", u, ""⟩ := by
  show Decode ("LEFT" ++ "|" ++ u) = some ⟨"LEFT", u, ""⟩
  have hne := append_sep_ne_empty "LEFT" u
  have key := splitN2_append_sep "LEFT" u (by decide)
  unfold Decode
  rw [if_neg hne, key]
  simp [hu]

theorem roundtrip_msg (u b : String) (hu : u ≠ "") (hb : b ≠ "")
    (hp : '|' ∉ u.data) :
    Decode (Encode ⟨"MSG", u, b⟩) = some ⟨"MSG", u, b⟩ := by
  show Decode ("MSG" ++ "|" ++ u ++ "|" ++ b) = some ⟨"MSG", u, b⟩
  have hassoc : ("MSG" ++ "|" ++ u ++ "|" ++ b) =
      ("MSG" ++ "|" ++ (u ++ "|" ++ b)) := by
    simp [String.ext_iff, String.data_append]
  rw [hassoc]
  have hne := append_sep_ne_empty "MSG" (u ++ "|" ++ b)
  have key := splitN2_append_sep "MSG" (u ++ "|" ++ b) (by decide)
  have key2 := splitN2_append_sep u b hp
  unfold Decode
  rw [if_neg hne, key]
  simp only []
  rw [key2]
  simp [hu, hb]

/-! ### Helper lemmas about the registry -/

theorem Send_username (c : ConnectedClient) (line : String) :
    (Send c line).username = c.username := by
  rw [Send]; split <;> rfl

theorem broadcast_preserves_usernames (clients : List ConnectedClient)
    (sender line : String) (x : ConnectedClient)
    (hx : x ∈ broadcast clients sender line) :
    ∃ y ∈ clients, x.username = y.username := by
  obtain ⟨y, hy, rfl⟩ := List.mem_map.mp hx
  refine ⟨y, hy, ?_⟩
  split <;> simp [Send_username]

theorem removeClient_no_username (clients : List ConnectedClient)
    (username : String) (x : ConnectedClient)
    (hx : x ∈ removeClient clients username) : x.username ≠ username := by
  rw [removeClient] at hx
  split at hx
  · obtain ⟨y, hy, he⟩ := broadcast_preserves_usernames _ _ _ _ hx
    have := List.of_mem_filter hy
    simp at this
    simpa [he] using this
  · have := List.of_mem_filter hx
    simpa using this

theorem addClient_succeeds (clients : List ConnectedClient)
    (c : ConnectedClient) (h : ∀ x ∈ clients, x.username ≠ c.username) :
    (addClient clients c).1 = true := by
  rw [addClient]
  rw [if_neg]
  simp only [List.any_eq_true, not_exists, not_and]
  intro x hx
  simpa using h x hx

/-! ### Claim theorems -/

/-- C2: `addClient` returns `false` and leaves the registry completely
unchanged when the identity is already present, and otherwise inserts the
session under that identity and returns `true`. -/
theorem addClient_spec (clients : List ConnectedClient) (c : ConnectedClient) :
    ((∃ x ∈ clients, x.username = c.username) →
      addClient clients c = (false, clients)) ∧
    ((¬ ∃ x ∈ clients, x.username = c.username) →
      addClient clients c = (true, c :: clients)) := by
  constructor <;> intro h
  · rw [addClient, if_pos]
    simpa [List.any_eq_true] using h
  · rw [addClient, if_neg]
    simpa [List.any_eq_true] using h

/-- Witness for C2: registering `alice` a second time fails and leaves the
registry unchanged. -/
theorem addClient_spec_witness :
    addClient [⟨"alice", 1, []⟩] ⟨"alice", 2, ["x"]⟩ =
      (false, [⟨"alice", 1, []⟩]) :=
  (addClient_spec [⟨"alice", 1, []⟩] ⟨"alice", 2, ["x"]⟩).1
    ⟨⟨"alice", 1, []⟩, by simp, rfl⟩

/-- C3: `Send` never blocks and never returns an error: at capacity the
item is dropped and the queue is unchanged; below capacity the item is
appended. -/
theorem Send_spec (c : ConnectedClient) (line : String) :
    (c.outbox.length = c.capacity → Send c line = c) ∧
    (c.outbox.length < c.capacity →
      Send c line = { c with outbox := c.outbox ++ [line] }) := by
  constructor <;> intro h
  · rw [Send, if_neg (by omega)]
  · rw [Send, if_pos h]

/-- Witness for C3: a capacity-1 outbox holding one item silently drops the
second enqueued item; the first item remains queued. -/
theorem Send_spec_witness :
    Send ⟨"alice", 1, ["msg1"]⟩ "msg2" = ⟨"alice", 1, ["msg1"]⟩ :=
  (Send_spec ⟨"alice", 1, ["msg1"]⟩ "msg2").1 rfl

/-- C8: `Decode` splits only on the first separator before the
type-specific fields, so `MSG|alice|a|b|c` decodes to username `alice` and
body `a|b|c`. -/
theorem decode_msg_embedded_sep :
    Decode "MSG|alice|a|b|c" = some ⟨"MSG", "alice", "a|b|c"⟩ := by decide

/-- C9: every message returned by `Decode` satisfies the grammar's
non-emptiness constraints: decoded JOIN/JOINED/LEFT have a non-empty
username, decoded SEND/ERR have a non-empty body, and decoded MSG has both
non-empty. -/
theorem decode_field_invariant (line : String) (m : Message)
    (h : Decode line = some m) :
    ((m.MsgType = "JOIN" ∨ m.MsgType = "JOINED" ∨ m.MsgType = "LEFT") →
      m.Username ≠ "") ∧
    ((m.MsgType = "SEND" ∨ m.MsgType = "ERR") → m.Body ≠ "") ∧
    (m.MsgType = "MSG" → m.Username ≠ "" ∧ m.Body ≠ "") :=
  decode_fields_aux line m h

/-- Witness for C9 at the line `JOIN|alice`. -/
theorem decode_field_invariant_witness :
    (((Message.mk "JOIN" "alice" "").MsgType = "JOIN" ∨
      (Message.mk "JOIN" "alice" "").MsgType = "JOINED" ∨
      (Message.mk "JOIN" "alice" "").MsgType = "LEFT") →
      (Message.mk "JOIN" "alice" "").Username ≠ "") ∧
    (((Message.mk "JOIN" "alice" "").MsgType = "SEND" ∨
      (Message.mk "JOIN" "alice" "").MsgType = "ERR") →
      (Message.mk "JOIN" "alice" "").Body ≠ "") ∧
    ((Message.mk "JOIN" "alice" "").MsgType = "MSG" →
      (Message.mk "JOIN" "alice" "").Username ≠ "" ∧
      (Message.mk "JOIN" "alice" "").Body ≠ "") :=
  decode_field_invariant "JOIN|alice" ⟨"JOIN", "alice", ""⟩ (by decide)

/-- C10: `Decode` accepts trailing content after the field-less message
types: for every string `s`, `LEAVE|s` decodes to a Leave message and
`OK|s` decodes to an Ok message, the trailing content being discarded. -/
theorem decode_trailing_fieldless (s : String) :
    Decode ("LEAVE|" ++ s) = some ⟨"LEAVE", "", ""⟩ ∧
    Decode ("OK|" ++ s) = some ⟨"OK", "", ""⟩ := by
  constructor
  · have h1 : ("LEAVE|" ++ s) = "LEAVE" ++ "|" ++ s := by
      simp [String.ext_iff, String.data_append]
    have hne : ("LEAVE|" ++ s) ≠ "" := by
      rw [h1]; exact append_sep_ne_empty "LEAVE" s
    have hsp : splitN2 ("LEAVE|" ++ s) = ("LEAVE", some s) := by
      rw [h1]; exact splitN2_append_sep "LEAVE" s (by decide)
    simp [Decode, hne, hsp]
  · have h1 : ("OK|" ++ s) = "OK" ++ "|" ++ s := by
      simp [String.ext_iff, String.data_append]
    have hne : ("OK|" ++ s) ≠ "" := by
      rw [h1]; exact append_sep_ne_empty "OK" s
    have hsp : splitN2 ("OK|" ++ s) = ("OK", some s) := by
      rw [h1]; exact splitN2_append_sep "OK" s (by decide)
    simp [Decode, hne, hsp]

/-- Witness for C10 at the trailing content `junk`. -/
theorem decode_trailing_fieldless_witness :
    Decode ("LEAVE|" ++ "junk") = some ⟨"LEAVE", "", ""⟩ ∧
    Decode ("OK|" ++ "junk") = some ⟨"OK", "", ""⟩ :=
  decode_trailing_fieldless "junk"

/-- Counterexample for C7: the message `MSG` with username `a|b` and body
`c` has its required fields non-empty, yet decoding its encoding yields
username `a` and body `b|c`, not the original message. -/
theorem decode_encode_roundtrip_cex :
    wellFormed ⟨"MSG", "a|b", "c"⟩ = true ∧
    Decode (Encode ⟨"MSG", "a|b", "c"⟩) = some ⟨"MSG", "a", "b|c"⟩ ∧
    Decode (Encode ⟨"MSG", "a|b", "c"⟩) ≠ some ⟨"MSG", "a|b", "c"⟩ := by
  decide

/-- C7 (amended): the codec round-trips over all eight variants for every
message in the canonical form of the discriminated union (required fields
non-empty, irrelevant fields empty), provided additionally that a MSG
username contains no separator character. -/
theorem decode_encode_roundtrip (m : Message) (hw : wellFormed m = true)
    (hp : m.MsgType = "MSG" → '|' ∉ m.Username.data) :
    Decode (Encode m) = some m := by
  obtain ⟨t, u, b⟩ := m
  simp only [wellFormed] at hw
  split at hw
  all_goals
    first
      | exact absurd hw Bool.false_ne_true
      | (simp only [Bool.and_eq_true, bne_iff_ne, ne_eq, beq_iff_eq] at hw
         obtain ⟨h1, h2⟩ := hw
         first
           | (subst h2; exact roundtrip_join u h1)
           | (subst h2; exact roundtrip_joined u h1)
           | (subst h2; exact roundtrip_left u h1)
           | (subst h2; exact roundtrip_send b h1)
           | (subst h2; exact roundtrip_err b h1)
           | (subst h1; subst h2; decide)
           | (exact roundtrip_msg u b h1 h2 (hp rfl)))

/-- Witness for C7 (amended) at a MSG message with a separator inside the
body. -/
theorem decode_encode_roundtrip_witness :
    Decode (Encode ⟨"MSG", "alice", "a|b"⟩) = some ⟨"MSG", "alice", "a|b"⟩ :=
  decode_encode_roundtrip ⟨"MSG", "alice", "a|b"⟩ (by decide)
    (fun _ => by decide)

/-- C5: when the first received line fails to decode or decodes to a
message whose type is not JOIN, the supervisor answers with the single line
`ERR|expected JOIN message` and the registry is left unchanged. -/
theorem handshake_reject_nonjoin (clients : List ConnectedClient)
    (line : String) (h : ∀ m, Decode line = some m → m.MsgType ≠ "JOIN") :
    handleFirstLine clients line = (["ERR|expected JOIN message"], clients) := by
  have hErr : Encode ⟨"ERR", "", "expected JOIN message"⟩ =
      "ERR|expected JOIN message" := by decide
  unfold handleFirstLine
  cases hd : Decode line with
  | none => rw [hErr]
  | some msg =>
      have hne := h msg hd
      simp [handleJoinMsg, hne, hErr]

/-- Witness for C5: a connection whose first line is `SEND|x` is rejected
with `ERR|expected JOIN message` and is not added to the registry. -/
theorem handshake_reject_nonjoin_witness :
    handleFirstLine [] "SEND|x" = (["ERR|expected JOIN message"], []) :=
  handshake_reject_nonjoin [] "SEND|x" (by
    intro m hm
    have hd : Decode "SEND|x" = some ⟨"SEND", "", "x"⟩ := by decide
    rw [hd] at hm
    injection hm with h2
    subst h2
    decide)

/-- Counterexample for C6: the wire line for a Join with empty identity is
`JOIN|`, which fails `Decode`, so the supervisor answers
`ERR|expected JOIN message` and not `ERR|username cannot be empty`. -/
theorem handshake_empty_join_cex :
    Decode "JOIN|" = none ∧
    handleFirstLine [] "JOIN|" = (["ERR|expected JOIN message"], []) ∧
    (["ERR|expected JOIN message"] : List String) ≠
      ["ERR|username cannot be empty"] := by decide

/-- C6 (amended): if the supervisor is handed a decoded message of type
JOIN with an empty username, it answers `ERR|username cannot be empty` and
leaves the registry unchanged; however no input line ever decodes to such a
message, so on the wire a Join with empty identity is rejected as a decode
failure with `ERR|expected JOIN message` (see the counterexample). -/
theorem handshake_empty_username (clients : List ConnectedClient)
    (m : Message) (line : String) (h1 : m.MsgType = "JOIN")
    (h2 : m.Username = "") :
    handleJoinMsg clients m = (["ERR|username cannot be empty"], clients) ∧
    Decode line ≠ some m := by
  constructor
  · have hErr : Encode ⟨"ERR", "", "username cannot be empty"⟩ =
        "ERR|username cannot be empty" := by decide
    simp [handleJoinMsg, h1, h2, hErr]
  · intro hd
    exact (decode_fields_aux line m hd).1 (Or.inl h1) h2

/-- Witness for C6 (amended) at the message `⟨JOIN, ε, ε⟩` and the line
`JOIN|x`. -/
theorem handshake_empty_username_witness :
    handleJoinMsg [] ⟨"JOIN", "", ""⟩ =
      (["ERR|username cannot be empty"], []) ∧
    Decode "JOIN|x" ≠ some ⟨"JOIN", "", ""⟩ :=
  handshake_empty_username [] ⟨"JOIN", "", ""⟩ "JOIN|x" rfl rfl

/-- C4: `removeClient` removes the entry for the given identity if present
and broadcasts a LEFT announcement iff a removal actually occurred; after
registering a session under an identity and then deregistering it, the
registry contains no entry for the identity and a subsequent registration
under it succeeds. -/
theorem removeClient_spec (clients : List ConnectedClient) (username : String) :
    (∀ x ∈ removeClient clients username, x.username ≠ username) ∧
    ((¬ ∃ x ∈ clients, x.username = username) →
      removeClient clients username = clients) ∧
    ((∃ x ∈ clients, x.username = username) →
      removeClient clients username =
        broadcast (clients.filter (fun x => x.username ≠ username)) username
          (Encode ⟨"LEFT", username, ""⟩)) ∧
    (∀ s s2 : ConnectedClient, s.username = username → s2.username = username →
      (∀ x ∈ removeClient (addClient clients s).2 username,
        x.username ≠ username) ∧
      (addClient (removeClient (addClient clients s).2 username) s2).1 =
        true) := by
  refine ⟨fun x hx => removeClient_no_username clients username x hx,
    ?_, ?_, ?_⟩
  · intro h
    have hany : clients.any (fun x => x.username = username) = false := by
      simp only [List.any_eq_false, decide_eq_true_eq]
      intro x hx he
      exact h ⟨x, hx, he⟩
    rw [removeClient]
    simp only [hany, Bool.false_eq_true, if_false]
    exact List.filter_eq_self.mpr fun a ha => by
      simpa using fun he => h ⟨a, ha, he⟩
  · intro h
    have hany : clients.any (fun x => x.username = username) = true := by
      simp only [List.any_eq_true, decide_eq_true_eq]
      exact h
    rw [removeClient]
    simp only [hany, if_true]
  · intro s s2 hs hs2
    refine ⟨fun x hx => removeClient_no_username _ _ x hx, ?_⟩
    apply addClient_succeeds
    intro x hx
    rw [hs2]
    exact removeClient_no_username _ _ x hx

/-- Witness for C4: deregistering `alice` from the singleton registry
broadcasts a LEFT announcement to the remaining (empty) registry. -/
theorem removeClient_spec_witness :
    removeClient [⟨"alice", 1, []⟩] "alice" =
      broadcast (([⟨"alice", 1, []⟩] : List ConnectedClient).filter
        (fun x => x.username ≠ "alice")) "alice"
        (Encode ⟨"LEFT", "alice", ""⟩) :=
  (removeClient_spec [⟨"alice", 1, []⟩] "alice").2.2.1
    ⟨⟨"alice", 1, []⟩, by simp, rfl⟩

set_option maxRecDepth 4096 in
/-- Counterexample for C1: with `alice`, `bob` and `charlie` registered and
`bob`'s outbox already at capacity, broadcasting with excluded identity
`alice` does not enqueue the line onto `bob`'s queue — the line is
dropped. -/
theorem broadcast_full_queue_cex :
    (broadcast
      [⟨"alice", 256, []⟩, ⟨"bob", 256, List.replicate 256 "x"⟩,
        ⟨"charlie", 256, []⟩] "alice" "MSG|alice|hi")[1]? =
      some ⟨"bob", 256, List.replicate 256 "x"⟩ ∧
    "MSG|alice|hi" ∉ List.replicate 256 "x" := by decide

/-- C1 (amended): `broadcast` with an excluded identity enqueues the line
onto the outbound queue of every registered session whose identity differs
from the excluded one and whose queue is below capacity; a session at
capacity keeps its queue unchanged (the line is dropped), and the excluded
session's queue is always unchanged. -/
theorem broadcast_spec (clients : List ConnectedClient) (sender line : String)
    (i : Nat) (c : ConnectedClient) (h : clients[i]? = some c) :
    (c.username = sender → (broadcast clients sender line)[i]? = some c) ∧
    (c.username ≠ sender → c.outbox.length < c.capacity →
      (broadcast clients sender line)[i]? =
        some { c with outbox := c.outbox ++ [line] }) ∧
    (c.username ≠ sender → c.capacity ≤ c.outbox.length →
      (broadcast clients sender line)[i]? = some c) := by
  have hb : (broadcast clients sender line)[i]? =
      some (if c.username = sender then c else Send c line) := by
    rw [broadcast, List.getElem?_map, h]
    rfl
  refine ⟨?_, ?_, ?_⟩
  · intro h1
    rw [hb, if_pos h1]
  · intro h1 h2
    rw [hb, if_neg h1, Send, if_pos h2]
  · intro h1 h2
    rw [hb, if_neg h1, Send, if_neg (by omega)]

/-- Witness for C1 (amended): with `alice`, `bob`, `charlie` registered and
queues below capacity, broadcasting excluding `alice` appends the line to
`bob`'s queue. -/
theorem broadcast_spec_witness :
    (broadcast [⟨"alice", 10, []⟩, ⟨"bob", 10, []⟩, ⟨"charlie", 10, []⟩]
      "alice" "MSG|alice|hi")[1]? = some ⟨"bob", 10, ["MSG|alice|hi"]⟩ :=
  (broadcast_spec [⟨"alice", 10, []⟩, ⟨"bob", 10, []⟩, ⟨"charlie", 10, []⟩]
    "alice" "MSG|alice|hi" 1 ⟨"bob", 10, []⟩ rfl).2.1
    (by decide) (by decide)

end SimpleChat
